import Mathlib

/-!
# kitex `pkg/remote/message.go`: messages, transport-info stores and their pools

A shallow embedding of the message entity of `pkg/remote/message.go`:
the `message` and `transInfo` structs, their reset (`zero`) and `Recycle`,
the two `sync.Pool`s, service resolution (`SpecifyServiceInfo`), lazy payload
creation (`NewData`) and `FillSendMsgFromRecvMsg`.

Go pointers and interfaces that may be nil are `Option`s; Go maps are
association lists under an `Option` (the nil map is `none`); methods with a
pointer receiver return the receiver's new state next to their results.
-/

namespace remote

/-! ## Go maps -/

/-- A Go map value. `none` is the nil map; `some l` is an allocated map holding
the bindings of `l`, where the first binding of a key is the one in force. -/
abbrev GoMap (K V : Type) := Option (List (K × V))

namespace GoMap

variable {K V : Type} [DecidableEq K]

/-- Go `make(map[K]V)`: an allocated map without entries. -/
def make : GoMap K V := some []

/-- The bindings of a map; a nil map has none. -/
def entries (m : GoMap K V) : List (K × V) :=
  match m with
  | none => []
  | some l => l

/-- The keys a `range` loop over the map visits. -/
def keys (m : GoMap K V) : List K :=
  ((entries m).map Prod.fst).dedup

/-- Go `len(m)`: the number of keys; `0` for a nil map. -/
def len (m : GoMap K V) : Nat := (keys m).length

/-- Go `v, ok := m[k]`: `none` stands for `ok = false`. Reading a nil map finds nothing. -/
def get (m : GoMap K V) (k : K) : Option V :=
  (entries m).lookup k

/-- Go `delete(m, k)`: removes the key; a no-op on a nil map or an absent key. -/
def delete (m : GoMap K V) (k : K) : GoMap K V :=
  match m with
  | none => none
  | some l => some (l.filter (fun e => decide (e.1 ≠ k)))

/-- Go `m[k] = v` on an allocated map (the callers below never write to a nil map). -/
def set (m : GoMap K V) (k : K) (v : V) : GoMap K V :=
  some ((k, v) :: (entries m).filter (fun e => decide (e.1 ≠ k)))

/-- The loop `for k := range m { delete(m, k) }`. -/
def clear (m : GoMap K V) : GoMap K V :=
  (keys m).foldl delete m

/-- The loop `for k, v := range src { dst[k] = v }`. -/
def putAll (dst src : GoMap K V) : GoMap K V :=
  (keys src).foldl (fun acc k => match get src k with
    | some v => set acc k v
    | none => acc) dst

end GoMap

/-! ## External types the message stores -/

/-- A non-nil `interface{}` value, named by the object it refers to. -/
structure Obj where
  ref : Nat
deriving DecidableEq, Repr

/-- A non-nil `rpcinfo.RPCInfo` handle; stored and forwarded, never interpreted. -/
structure RPCInfo where
  ref : Nat
deriving DecidableEq, Repr

/-- A non-nil `remote.PayloadCodec` handle. -/
structure PayloadCodec where
  ref : Nat
deriving DecidableEq, Repr

/-- Source `type MessageType int32`. -/
abbrev MessageType := Int

def InvalidMessageType : MessageType := 0
def Call : MessageType := 1
def Reply : MessageType := 2
def Exception : MessageType := 3
def Oneway : MessageType := 4
def Stream : MessageType := 5
def Heartbeat : MessageType := 6

/-- Tag key `ReadFailed`. -/
def ReadFailed : String := "RFailed"

/-- Tag key `MeshHeader`. -/
def MeshHeader : String := "mHeader"

/-- Source `type RPCRole int` (declared in `role.go`). -/
abbrev RPCRole := Int

/-- Modelled from the spec: the role enumeration is Client, Server; `role.go`, which
declares the two constants by `iota`, is not among the sources. -/
def Client : RPCRole := 0

/-- Modelled from the spec: second value of the role enumeration (see `Client`). -/
def Server : RPCRole := 1

/-- Source `type CompressType int32` (declared in `compression.go`). -/
abbrev CompressType := Int

/-- Modelled from the spec: compression defaults to none; `compression.go`, which declares
`NoCompress` as the first `iota` constant, is not among the sources. -/
def NoCompress : CompressType := 0

/-- Source `ProtocolInfo`: transport protocol and payload codec identifiers (both Go integers). -/
structure ProtocolInfo where
  TransProto : Int
  CodecType : Int
deriving DecidableEq, Repr

/-- Source `NewProtocolInfo`. -/
def NewProtocolInfo (tp ct : Int) : ProtocolInfo :=
  { TransProto := tp, CodecType := ct }

/-- Source `var emptyProtocolInfo ProtocolInfo`: the zero value. -/
def emptyProtocolInfo : ProtocolInfo :=
  { TransProto := 0, CodecType := 0 }

/-- A non-nil `serviceinfo.MethodInfo`. `NewArgs` is what the argument factory
returns (`none` for a nil `interface{}`). -/
structure MethodInfo where
  ref : Nat
  NewArgs : Option Obj
deriving DecidableEq, Repr

/-- A `serviceinfo.ServiceInfo` value. `Methods` is the exported map (its values are
interface values and may be nil); `lookup` is what the descriptor's own method lookup
`MethodInfo(name)` yields on this descriptor, kept as a field because
`pkg/serviceinfo` is not among the sources. -/
structure ServiceInfo where
  ServiceName : String
  Methods : GoMap String (Option MethodInfo)
  PayloadCodec : Int
  lookup : String → Option MethodInfo

/-- Source `var emptyServiceInfo serviceinfo.ServiceInfo`: the zero value, whose lookup finds nothing. -/
def emptyServiceInfo : ServiceInfo :=
  { ServiceName := "", Methods := none, PayloadCodec := 0, lookup := fun _ => none }

/-- Modelled from the spec: `(*ServiceInfo).MethodInfo(name)` is declared in
`pkg/serviceinfo`, which is not among the sources. The spec gives it as the
descriptor's method lookup by name, and has payload creation fail, without a panic,
while no descriptor is resolved: a nil receiver yields nil. -/
def ServiceInfo.MethodInfo (i : Option ServiceInfo) (name : String) : Option MethodInfo :=
  match i with
  | none => none
  | some s => s.lookup name

/-- The lookup that reads the `Methods` map: `i.Methods[name]`. -/
def methodsLookup (methods : GoMap String (Option MethodInfo)) (name : String) :
    Option MethodInfo :=
  (GoMap.get methods name).join

/-- Source `ServiceSearcher`: `SearchService(svcName, methodName, strict)`. -/
structure ServiceSearcher where
  SearchService : String → String → Bool → Option ServiceInfo

/-- Modelled from the spec: the two kinds of the error taxonomy; the constants
`UnknownService` and `UnknownMethod` are declared in `trans_errors.go`, which is not
among the sources. -/
inductive TransErrorType where
  | UnknownService
  | UnknownMethod
deriving DecidableEq, Repr

/-- Modelled from the spec: a `TransError` carries its kind and a message;
`NewTransErrorWithMsg` is declared in `trans_errors.go`, which is not among the sources. -/
structure TransError where
  typeID : TransErrorType
  message : String
deriving DecidableEq, Repr

/-- Source `NewTransErrorWithMsg(typeID, message)`. -/
def NewTransErrorWithMsg (typeID : TransErrorType) (message : String) : TransError :=
  { typeID := typeID, message := message }

/-! ## The transport-info store -/

/-- Source `type transInfo struct`. -/
structure transInfo where
  strInfo : GoMap String String
  intInfo : GoMap (Fin 65536) String
deriving DecidableEq, Repr

/-- Source `newTransInfo`. -/
def newTransInfo : transInfo :=
  { intInfo := GoMap.make, strInfo := GoMap.make }

/-- Source `(*transInfo).zero`. -/
def transInfo.zero (ti : transInfo) : transInfo :=
  { intInfo := GoMap.clear ti.intInfo, strInfo := GoMap.clear ti.strInfo }

/-- Source `(*transInfo).TransIntInfo`. -/
def transInfo.TransIntInfo (ti : transInfo) : GoMap (Fin 65536) String := ti.intInfo

/-- Source `(*transInfo).TransStrInfo`. -/
def transInfo.TransStrInfo (ti : transInfo) : GoMap String String := ti.strInfo

/-- Source `(*transInfo).PutTransIntInfo`. -/
def transInfo.PutTransIntInfo (ti : transInfo) (kvInfo : GoMap (Fin 65536) String) : transInfo :=
  match kvInfo with
  | none => ti
  | some _ =>
    if GoMap.len ti.intInfo = 0 then
      { ti with intInfo := kvInfo }
    else
      { ti with intInfo := GoMap.putAll ti.intInfo kvInfo }

/-- Source `(*transInfo).PutTransStrInfo`. -/
def transInfo.PutTransStrInfo (ti : transInfo) (kvInfo : GoMap String String) : transInfo :=
  match kvInfo with
  | none => ti
  | some _ =>
    if GoMap.len ti.strInfo = 0 then
      { ti with strInfo := kvInfo }
    else
      { ti with strInfo := GoMap.putAll ti.strInfo kvInfo }

/-- Source `(*transInfo).Recycle`: reset the store, then `transInfoPool.Put(ti)`. -/
def transInfo.Recycle (ti : transInfo) (transInfoPool : List transInfo) : List transInfo :=
  ti.zero :: transInfoPool

/-! ## The message -/

/-- Source `type message struct`. -/
structure message where
  msgType : MessageType
  data : Option Obj
  rpcInfo : Option RPCInfo
  targetSvcInfo : Option ServiceInfo
  svcSearcher : Option ServiceSearcher
  rpcRole : RPCRole
  compressType : CompressType
  payloadSize : Int
  transInfo : Option transInfo
  tags : GoMap String (Option Obj)
  protocol : ProtocolInfo
  payloadCodec : Option PayloadCodec

/-- Source `newMessage`: `&message{tags: make(map[string]interface{})}`. -/
def newMessage : message :=
  { msgType := 0, data := none, rpcInfo := none, targetSvcInfo := none, svcSearcher := none,
    rpcRole := 0, compressType := 0, payloadSize := 0, transInfo := none,
    tags := GoMap.make, protocol := emptyProtocolInfo, payloadCodec := none }

/-- Source `(*message).zero`, with the store pool it releases the store to. -/
def message.zero (m : message) (transInfoPool : List remote.transInfo) :
    message × List remote.transInfo :=
  let m1 := { m with msgType := InvalidMessageType }
  let m2 := { m1 with data := none }
  let m3 := { m2 with rpcInfo := none }
  let m4 := { m3 with targetSvcInfo := some emptyServiceInfo }
  let m5 := { m4 with rpcRole := -1 }
  let m6 := { m5 with compressType := NoCompress }
  let m7 := { m6 with payloadSize := 0 }
  let r : message × List remote.transInfo :=
    match m7.transInfo with
    | some ti => ({ m7 with transInfo := none }, ti.Recycle transInfoPool)
    | none => (m7, transInfoPool)
  let m8 := { r.1 with tags := GoMap.clear r.1.tags }
  let m9 := { m8 with protocol := emptyProtocolInfo }
  ({ m9 with svcSearcher := none }, r.2)

/-- The two `sync.Pool`s: the instances released and not yet handed out again. -/
structure Pools where
  messagePool : List message
  transInfoPool : List transInfo

/-- Source `sync.Pool.Get`: hands out one of the pooled instances, removing it, or a new one
from `New`; `pick` is the choice the pool makes. -/
def poolGet {α : Type} (new : α) (pool : List α) (pick : Option Nat) : α × List α :=
  match pick with
  | none => (new, pool)
  | some i =>
    match pool.get? i with
    | some x => (x, pool.eraseIdx i)
    | none => (new, pool)

/-- Source `NewMessage`. -/
def NewMessage (p : Pools) (pickMsg pickInfo : Option Nat) (data : Option Obj)
    (svcInfo : Option ServiceInfo) (ri : Option RPCInfo) (msgType : MessageType)
    (rpcRole : RPCRole) : message × Pools :=
  let g := poolGet newMessage p.messagePool pickMsg
  let t := poolGet newTransInfo p.transInfoPool pickInfo
  ({ g.1 with data := data, rpcInfo := ri, targetSvcInfo := svcInfo, msgType := msgType,
              rpcRole := rpcRole, transInfo := some t.1 },
   { messagePool := g.2, transInfoPool := t.2 })

/-- Source `NewMessageWithNewer`. -/
def NewMessageWithNewer (p : Pools) (pickMsg pickInfo : Option Nat)
    (targetSvcInfo : Option ServiceInfo) (svcSearcher : Option ServiceSearcher)
    (ri : Option RPCInfo) (msgType : MessageType) (rpcRole : RPCRole) : message × Pools :=
  let g := poolGet newMessage p.messagePool pickMsg
  let t := poolGet newTransInfo p.transInfoPool pickInfo
  ({ g.1 with rpcInfo := ri, targetSvcInfo := targetSvcInfo, svcSearcher := svcSearcher,
              msgType := msgType, rpcRole := rpcRole, transInfo := some t.1 },
   { messagePool := g.2, transInfoPool := t.2 })

/-- Source `(*message).Recycle`: reset, then `messagePool.Put(m)`. -/
def message.Recycle (m : message) (p : Pools) : Pools :=
  let z := m.zero p.transInfoPool
  { messagePool := z.1 :: p.messagePool, transInfoPool := z.2 }

/-- Source `RecycleMessage`: recycles a non-nil message. -/
def RecycleMessage (msg : Option message) (p : Pools) : Pools :=
  match msg with
  | some m => m.Recycle p
  | none => p

/-- Source `(*message).RPCInfo`. -/
def message.RPCInfo (m : message) : Option remote.RPCInfo := m.rpcInfo

/-- Source `(*message).ServiceInfo`. -/
def message.ServiceInfo (m : message) : Option remote.ServiceInfo := m.targetSvcInfo

/-- Source `(*message).Data`. -/
def message.Data (m : message) : Option Obj := m.data

/-- Source `(*message).MessageType`. -/
def message.MessageType (m : message) : remote.MessageType := m.msgType

/-- Source `(*message).SetMessageType`. -/
def message.SetMessageType (m : message) (mt : remote.MessageType) : message :=
  { m with msgType := mt }

/-- Source `(*message).RPCRole`. -/
def message.RPCRole (m : message) : remote.RPCRole := m.rpcRole

/-- Source `(*message).TransInfo`. -/
def message.TransInfo (m : message) : Option remote.transInfo := m.transInfo

/-- Source `(*message).Tags`. -/
def message.Tags (m : message) : GoMap String (Option Obj) := m.tags

/-- Source `(*message).PayloadLen`. -/
def message.PayloadLen (m : message) : Int := m.payloadSize

/-- Source `(*message).SetPayloadLen`. -/
def message.SetPayloadLen (m : message) (size : Int) : message :=
  { m with payloadSize := size }

/-- Source `(*message).ProtocolInfo`. -/
def message.ProtocolInfo (m : message) : remote.ProtocolInfo := m.protocol

/-- Source `(*message).SetProtocolInfo`. -/
def message.SetProtocolInfo (m : message) (pt : remote.ProtocolInfo) : message :=
  { m with protocol := pt }

/-- Source `(*message).PayloadCodec`. -/
def message.PayloadCodec (m : message) : Option remote.PayloadCodec := m.payloadCodec

/-- Source `(*message).SetPayloadCodec`. -/
def message.SetPayloadCodec (m : message) (pc : Option remote.PayloadCodec) : message :=
  { m with payloadCodec := pc }

/-- One invocation of the searcher: `(svcName, methodName, strict)`. -/
abbrev SearchCall := String × String × Bool

/-- What a call of `SpecifyServiceInfo` yields: the two return values, the receiver
afterwards, and the searcher invocations it made, in order. -/
structure SpecifyResult where
  svcInfo : Option ServiceInfo
  err : Option TransError
  msg : message
  searches : List SearchCall

/-- Source `(*message).SpecifyServiceInfo`. -/
def message.SpecifyServiceInfo (m : message) (svcName methodName : String) : SpecifyResult :=
  match m.targetSvcInfo with
  | some _ =>
    match remote.ServiceInfo.MethodInfo m.targetSvcInfo methodName with
    | none =>
      { svcInfo := none,
        err := some (NewTransErrorWithMsg .UnknownMethod ("unknown method " ++ methodName)),
        msg := m, searches := [] }
    | some _ => { svcInfo := m.targetSvcInfo, err := none, msg := m, searches := [] }
  | none =>
    match m.svcSearcher with
    | none =>
      { svcInfo := none,
        err := some (NewTransErrorWithMsg .UnknownService "svcSearcher is nil"),
        msg := m, searches := [] }
    | some searcher =>
      match searcher.SearchService svcName methodName false with
      | none =>
        { svcInfo := none,
          err := some (NewTransErrorWithMsg .UnknownService
            ("unknown service " ++ svcName ++ ", method " ++ methodName)),
          msg := m, searches := [(svcName, methodName, false)] }
      | some svcInfo =>
        match GoMap.get svcInfo.Methods methodName with
        | none =>
          { svcInfo := none,
            err := some (NewTransErrorWithMsg .UnknownMethod
              ("unknown method " ++ methodName ++ " (service " ++ svcName ++ ")")),
            msg := m, searches := [(svcName, methodName, false)] }
        | some _ =>
          { svcInfo := some svcInfo, err := none,
            msg := { m with targetSvcInfo := some svcInfo },
            searches := [(svcName, methodName, false)] }

/-- Source `(*message).NewData`: the returned `ok` and the receiver afterwards. -/
def message.NewData (m : message) (method : String) : Bool × message :=
  match m.data with
  | some _ => (false, m)
  | none =>
    let m1 : message :=
      match remote.ServiceInfo.MethodInfo m.targetSvcInfo method with
      | some mt => { m with data := mt.NewArgs }
      | none => m
    match m1.data with
    | none => (false, m1)
    | some _ => (true, m1)

/-- Source `FillSendMsgFromRecvMsg`: the send message afterwards (the receive message is only read). -/
def FillSendMsgFromRecvMsg (recvMsg sendMsg : message) : message :=
  (sendMsg.SetProtocolInfo recvMsg.ProtocolInfo).SetPayloadCodec recvMsg.PayloadCodec

/-! ## Message pointers, operation sequences, pool contents -/

/-- Source `FillSendMsgFromRecvMsg` on two message pointers: `heap` tells which message
an address holds, and the two arguments may be the same address. The second statement
reads the receive message after the first statement has written the send message. -/
def FillSendMsgFromRecvMsgAt (heap : Nat → message) (recvMsg sendMsg : Nat) : Nat → message :=
  let heap1 := Function.update heap sendMsg
    ((heap sendMsg).SetProtocolInfo (heap recvMsg).ProtocolInfo)
  Function.update heap1 sendMsg ((heap1 sendMsg).SetPayloadCodec (heap1 recvMsg).PayloadCodec)

/-- The operations a call path applies to a message it holds, Recycle apart. The two
`Fill` operations are `FillSendMsgFromRecvMsg` with the message as the send, or as the
receive, argument; the two `Put` operations go through `TransInfo()`. -/
inductive Op where
  | SetMessageType (mt : MessageType)
  | SetPayloadLen (size : Int)
  | SetProtocolInfo (pt : ProtocolInfo)
  | SetPayloadCodec (pc : Option PayloadCodec)
  | SpecifyServiceInfo (svcName methodName : String)
  | NewData (method : String)
  | FillAsSend (recvMsg : message)
  | FillAsRecv (sendMsg : message)
  | PutTransIntInfo (kvInfo : GoMap (Fin 65536) String)
  | PutTransStrInfo (kvInfo : GoMap String String)

/-- The message after one operation. `none` is the nil dereference of a put through
`TransInfo()` on a message that has no store. -/
def message.applyOp (m : message) : Op → Option message
  | .SetMessageType mt => some (m.SetMessageType mt)
  | .SetPayloadLen size => some (m.SetPayloadLen size)
  | .SetProtocolInfo pt => some (m.SetProtocolInfo pt)
  | .SetPayloadCodec pc => some (m.SetPayloadCodec pc)
  | .SpecifyServiceInfo svcName methodName => some (m.SpecifyServiceInfo svcName methodName).msg
  | .NewData method => some (m.NewData method).2
  | .FillAsSend recvMsg => some (FillSendMsgFromRecvMsg recvMsg m)
  | .FillAsRecv _ => some m
  | .PutTransIntInfo kvInfo =>
    match m.TransInfo with
    | some ti => some { m with transInfo := some (ti.PutTransIntInfo kvInfo) }
    | none => none
  | .PutTransStrInfo kvInfo =>
    match m.TransInfo with
    | some ti => some { m with transInfo := some (ti.PutTransStrInfo kvInfo) }
    | none => none

/-- The message after a sequence of operations, applied in order. -/
def message.run (m : message) : List Op → Option message
  | [] => some m
  | o :: os => (m.applyOp o).bind (fun m2 => m2.run os)

/-- The state in which Recycle pools a message: the reset of a message whose tags map
is allocated. -/
def message.ResetState (x : message) : Prop :=
  ∃ (m : message) (pool : List remote.transInfo), m.tags ≠ none ∧ x = (m.zero pool).1

/-- The state in which Recycle pools a store: the reset of a store. -/
def transInfo.ResetState (t : transInfo) : Prop :=
  ∃ u : transInfo, t = u.zero

/-- Pools that hold what Recycle put there: every pooled message and every pooled
store is in its reset state. -/
def Pools.Recycled (p : Pools) : Prop :=
  (∀ x ∈ p.messagePool, x.ResetState) ∧ (∀ t ∈ p.transInfoPool, t.ResetState)

/-- The string `sub` occurs in the string `s`. -/
def occursIn (sub s : String) : Prop := sub.data <:+: s.data

instance (sub s : String) : Decidable (occursIn sub s) :=
  inferInstanceAs (Decidable (sub.data <:+: s.data))

/-- The operations a call path applies to a store it holds: the two puts, with any
argument map (nil, empty or not), and the reset. -/
inductive StoreOp where
  | PutTransIntInfo (kvInfo : GoMap (Fin 65536) String)
  | PutTransStrInfo (kvInfo : GoMap String String)
  | zero

/-- The store after one operation. -/
def transInfo.applyOp (ti : transInfo) : StoreOp → transInfo
  | .PutTransIntInfo kvInfo => ti.PutTransIntInfo kvInfo
  | .PutTransStrInfo kvInfo => ti.PutTransStrInfo kvInfo
  | .zero => ti.zero

/-- The store after a sequence of operations, applied in order. -/
def transInfo.run (ti : transInfo) (ops : List StoreOp) : transInfo :=
  ops.foldl transInfo.applyOp ti

/-! ## Concrete inputs -/

/-- Both pools empty, as at process start. -/
def emptyPools : Pools := { messagePool := [], transInfoPool := [] }

/-- The message a client call path used before: direct construction from empty pools,
then a payload codec set on it. -/
def usedMessage : message :=
  (NewMessage emptyPools none none (some { ref := 1 }) none
    (some { ref := 2 }) Call Client).1.SetPayloadCodec (some { ref := 7 })

/-- A method descriptor whose argument factory returns object 5. -/
def echoMethod : MethodInfo := { ref := 1, NewArgs := some { ref := 5 } }

/-- The descriptor of service Echo, exposing the method echo; its lookup reads `Methods`. -/
def echoService : ServiceInfo :=
  { ServiceName := "Echo", Methods := some [("echo", some echoMethod)], PayloadCodec := 0,
    lookup := methodsLookup (some [("echo", some echoMethod)]) }

/-- A descriptor of service Echo whose `Methods` map binds echo to a nil `MethodInfo`;
its lookup reads `Methods`. -/
def nilEntryService : ServiceInfo :=
  { ServiceName := "Echo", Methods := some [("echo", none)], PayloadCodec := 0,
    lookup := methodsLookup (some [("echo", none)]) }

/-- A searcher that knows one service, by its name. -/
def searcherOf (s : ServiceInfo) : ServiceSearcher :=
  { SearchService := fun svcName _ _ => if svcName = s.ServiceName then some s else none }

/-- A server-side inbound message built by deferred construction from empty pools, with
no descriptor and the given searcher. -/
def deferredMessage (searcher : Option ServiceSearcher) : message :=
  (NewMessageWithNewer emptyPools none none none searcher (some { ref := 2 }) Call Server).1

/-- A message built by direct construction from empty pools with the given payload and
descriptor. -/
def directMessage (data : Option Obj) (svcInfo : Option ServiceInfo) : message :=
  (NewMessage emptyPools none none data svcInfo (some { ref := 2 }) Call Client).1

/-- The pools after the used message was recycled into empty pools. -/
def recycledPools : Pools := usedMessage.Recycle emptyPools

/-! ## Lemmas on Go maps -/

namespace GoMap

variable {K V : Type} [DecidableEq K]

theorem foldl_delete_none (ks : List K) :
    ks.foldl delete (none : GoMap K V) = none := by
  induction ks with
  | nil => rfl
  | cons k ks ih => simpa [List.foldl, delete] using ih

theorem foldl_delete_some (ks : List K) (l : List (K × V)) :
    ks.foldl delete (some l : GoMap K V) = some (l.filter (fun e => decide (e.1 ∉ ks))) := by
  induction ks generalizing l with
  | nil => simp
  | cons k ks ih =>
    simp only [List.foldl, delete]
    rw [ih, List.filter_filter]
    congr 1
    apply List.filter_congr
    intro e _
    by_cases h1 : e.1 = k <;> by_cases h2 : e.1 ∈ ks <;> simp [h1, h2]

theorem clear_none : clear (none : GoMap K V) = none := by
  simp [clear, keys, entries]

theorem clear_some (l : List (K × V)) : clear (some l : GoMap K V) = some [] := by
  unfold clear
  rw [foldl_delete_some]
  congr 1
  rw [List.filter_eq_nil_iff]
  intro e he
  have : e.1 ∈ keys (some l : GoMap K V) := by
    simp only [keys, entries, List.mem_dedup, List.mem_map]
    exact ⟨e, he, rfl⟩
  simp [this]

theorem entries_clear (m : GoMap K V) : entries (clear m) = [] := by
  cases m with
  | none => rw [clear_none]; rfl
  | some l => rw [clear_some]; rfl

theorem clear_isSome (m : GoMap K V) : (clear m).isSome = m.isSome := by
  cases m with
  | none => rw [clear_none]
  | some l => rw [clear_some]; rfl

theorem clear_clear (m : GoMap K V) : clear (clear m) = clear m := by
  cases m with
  | none => rw [clear_none, clear_none]
  | some l => rw [clear_some, clear_some]

theorem entries_eq_nil_of_len (m : GoMap K V) (h : len m = 0) : entries m = [] := by
  unfold len keys at h
  have h1 : ((entries m).map Prod.fst).dedup = [] := List.length_eq_zero.mp h
  have h2 : (entries m).map Prod.fst = [] := by
    cases hl : (entries m).map Prod.fst with
    | nil => rfl
    | cons a t =>
      have : a ∈ ((entries m).map Prod.fst).dedup := by
        rw [List.mem_dedup, hl]
        exact List.mem_cons_self a t
      rw [h1] at this
      exact absurd this (List.not_mem_nil a)
  exact List.map_eq_nil_iff.mp h2

theorem get_eq_none_of_len (m : GoMap K V) (h : len m = 0) (k : K) : get m k = none := by
  simp [get, entries_eq_nil_of_len m h]

theorem lookup_filter_ne (l : List (K × V)) (k j : K) :
    (l.filter (fun e => decide (e.1 ≠ k))).lookup j = if j = k then none else l.lookup j := by
  induction l with
  | nil => simp
  | cons e t ih =>
    obtain ⟨a, b⟩ := e
    by_cases hak : a = k
    · rw [List.filter_cons_of_neg (by simp [hak]), ih]
      by_cases hjk : j = k
      · simp [hjk]
      · have hne : (j == a) = false := by rw [hak]; simpa using hjk
        simp [hjk, List.lookup, hne]
    · rw [List.filter_cons_of_pos (by simp [hak])]
      by_cases hja : j = a
      · have hjk : ¬ j = k := by rw [hja]; exact hak
        simp [hja, hak, List.lookup]
      · have hne : (j == a) = false := by simpa using hja
        simp only [List.lookup, hne]
        exact ih

theorem get_set (m : GoMap K V) (k : K) (v : V) (j : K) :
    get (set m k v) j = if j = k then some v else get m j := by
  show List.lookup j ((k, v) :: (entries m).filter (fun e => decide (e.1 ≠ k))) =
    if j = k then some v else List.lookup j (entries m)
  by_cases hjk : j = k
  · simp [hjk, List.lookup]
  · have hne : (j == k) = false := by simpa using hjk
    simp only [List.lookup, hne]
    rw [lookup_filter_ne, if_neg hjk, if_neg hjk]

theorem mem_keys_iff (m : GoMap K V) (j : K) : j ∈ keys m ↔ get m j ≠ none := by
  unfold keys get
  rw [List.mem_dedup]
  induction entries m with
  | nil => simp
  | cons e t ih =>
    obtain ⟨a, b⟩ := e
    by_cases hja : j = a
    · subst hja
      simp [List.lookup]
    · have hne : (j == a) = false := by simpa using hja
      simp only [List.map_cons, List.mem_cons, hja, false_or, List.lookup, hne]
      exact ih

theorem get_foldl_set (src : GoMap K V) (ks : List K) (acc : GoMap K V) (j : K) :
    get (ks.foldl (fun acc k => match get src k with
      | some v => set acc k v
      | none => acc) acc) j =
    if j ∈ ks then (get src j).or (get acc j) else get acc j := by
  induction ks generalizing acc with
  | nil => simp
  | cons k ks ih =>
    rw [List.foldl_cons, ih]
    by_cases hjk : j = k
    · subst hjk
      cases hs : get src j with
      | none => simp
      | some v => simp [get_set]
    · cases hk : get src k with
      | none => simp [hjk]
      | some v => simp [hjk, get_set]

/-- Reading the result of the assignment loop: a key of the source reads the source
value, any other key reads what the target held. -/
theorem get_putAll (dst src : GoMap K V) (j : K) :
    get (putAll dst src) j = (get src j).or (get dst j) := by
  unfold putAll
  rw [get_foldl_set]
  by_cases hj : j ∈ keys src
  · simp [hj]
  · have : get src j = none := by
      by_contra hne
      exact hj ((mem_keys_iff src j).mpr hne)
    simp [hj, this]

end GoMap

/-! ## Reset of a message -/

/-- C1: for every message state, whatever its fields hold, the reset done by Recycle
(the instance Recycle puts in the pool is the one `zero` leaves) has message type
Invalid = 0, nil payload, nil rpc info, the empty placeholder descriptor (not nil),
role -1 (neither Client nor Server), compression NoCompress, payload size 0, no store,
no tag entry, the zero protocol info and no searcher. -/
theorem zero_resets_every_listed_field (m : message) (p : Pools) :
    (m.Recycle p).messagePool = (m.zero p.transInfoPool).1 :: p.messagePool ∧
    (m.zero p.transInfoPool).1.msgType = InvalidMessageType ∧
    InvalidMessageType = 0 ∧
    (m.zero p.transInfoPool).1.data = none ∧
    (m.zero p.transInfoPool).1.rpcInfo = none ∧
    (m.zero p.transInfoPool).1.targetSvcInfo = some emptyServiceInfo ∧
    (m.zero p.transInfoPool).1.rpcRole = -1 ∧
    (m.zero p.transInfoPool).1.rpcRole ≠ Client ∧
    (m.zero p.transInfoPool).1.rpcRole ≠ Server ∧
    (m.zero p.transInfoPool).1.compressType = NoCompress ∧
    (m.zero p.transInfoPool).1.payloadSize = 0 ∧
    (m.zero p.transInfoPool).1.transInfo = none ∧
    GoMap.entries (m.zero p.transInfoPool).1.tags = [] ∧
    GoMap.len (m.zero p.transInfoPool).1.tags = 0 ∧
    (∀ k, GoMap.get (m.zero p.transInfoPool).1.tags k = none) ∧
    (m.zero p.transInfoPool).1.protocol = emptyProtocolInfo ∧
    emptyProtocolInfo = { TransProto := 0, CodecType := 0 } ∧
    (m.zero p.transInfoPool).1.svcSearcher = none := by
  have ht : GoMap.entries (m.zero p.transInfoPool).1.tags = [] := by
    unfold message.zero
    cases h : m.transInfo <;> simp [GoMap.entries_clear]
  refine ⟨rfl, ?_, rfl, ?_, ?_, ?_, ?_, ?_, ?_, ?_, ?_, ?_, ht, ?_, ?_, ?_, rfl, ?_⟩
  · unfold message.zero; cases h : m.transInfo <;> rfl
  · unfold message.zero; cases h : m.transInfo <;> rfl
  · unfold message.zero; cases h : m.transInfo <;> rfl
  · unfold message.zero; cases h : m.transInfo <;> rfl
  · unfold message.zero; cases h : m.transInfo <;> rfl
  · unfold message.zero; cases h : m.transInfo <;> simp [Client]
  · unfold message.zero; cases h : m.transInfo <;> simp [Server]
  · unfold message.zero; cases h : m.transInfo <;> rfl
  · unfold message.zero; cases h : m.transInfo <;> rfl
  · unfold message.zero; cases h : m.transInfo <;> simp
  · simp [GoMap.len, GoMap.keys, ht]
  · intro k; simp [GoMap.get, ht]
  · unfold message.zero; cases h : m.transInfo <;> rfl
  · unfold message.zero; cases h : m.transInfo <;> rfl

/-- C2: the reset leaves the payload codec of the previous use in place. Recycling a
message that had codec 7 set and acquiring the pooled instance again by NewMessage
gives a message whose PayloadCodec() is still codec 7, not nil, and the reset states
of that message and of a fresh one differ in the payloadCodec field; in general
`zero` returns the payloadCodec it was given. -/
theorem zero_keeps_payloadCodec :
    (NewMessage (usedMessage.Recycle emptyPools) (some 0) (some 0)
        none none none Reply Server).1.PayloadCodec = some { ref := 7 } ∧
    (usedMessage.zero []).1.payloadCodec ≠ (newMessage.zero []).1.payloadCodec ∧
    ∀ (m : message) (pool : List transInfo), (m.zero pool).1.payloadCodec = m.payloadCodec := by
  refine ⟨by decide, by decide, ?_⟩
  intro m pool
  unfold message.zero
  cases h : m.transInfo <;> rfl

/-! ## Service resolution -/

/-- C3: resolution is not memoized where the two method checks of SpecifyServiceInfo
disagree. With a searcher whose service binds echo to a nil method descriptor in
`Methods`, the first call succeeds (the searcher path tests only that the key is
present) and stores the descriptor, and the second call on the same message fails with
UnknownMethod and returns no descriptor (the held-descriptor path tests that the lookup
is not nil). -/
theorem specify_twice_second_fails :
    ((deferredMessage (some (searcherOf nilEntryService))).SpecifyServiceInfo "Echo" "echo").err
      = none ∧
    ((deferredMessage (some (searcherOf nilEntryService))).SpecifyServiceInfo "Echo" "echo"
      ).svcInfo.isSome = true ∧
    (((deferredMessage (some (searcherOf nilEntryService))).SpecifyServiceInfo "Echo" "echo"
      ).msg.SpecifyServiceInfo "Echo" "echo").err
      = some (NewTransErrorWithMsg .UnknownMethod "unknown method echo") ∧
    (((deferredMessage (some (searcherOf nilEntryService))).SpecifyServiceInfo "Echo" "echo"
      ).msg.SpecifyServiceInfo "Echo" "echo").svcInfo.isNone = true := by
  refine ⟨by decide, by decide, by decide, by decide⟩

/-- Where the two method checks agree, resolution is memoized: for every message with
no descriptor and every service and method name for which the first SpecifyServiceInfo
succeeds and the descriptor it returned finds the method by its own lookup, the second
call on the same message succeeds too, returns the same descriptor, leaves the message
as the first call left it, and does not invoke the searcher. -/
theorem specify_memoized (m : message) (svcName methodName : String)
    (hnil : m.targetSvcInfo = none)
    (hfirst : (m.SpecifyServiceInfo svcName methodName).err = none)
    (hlookup : ServiceInfo.MethodInfo (m.SpecifyServiceInfo svcName methodName).svcInfo
      methodName ≠ none) :
    ((m.SpecifyServiceInfo svcName methodName).msg.SpecifyServiceInfo svcName methodName).err
      = none ∧
    ((m.SpecifyServiceInfo svcName methodName).msg.SpecifyServiceInfo svcName methodName).svcInfo
      = (m.SpecifyServiceInfo svcName methodName).svcInfo ∧
    (m.SpecifyServiceInfo svcName methodName).svcInfo ≠ none ∧
    ((m.SpecifyServiceInfo svcName methodName).msg.SpecifyServiceInfo svcName methodName).msg
      = (m.SpecifyServiceInfo svcName methodName).msg ∧
    ((m.SpecifyServiceInfo svcName methodName).msg.SpecifyServiceInfo svcName methodName).searches
      = [] ∧
    ((m.SpecifyServiceInfo svcName methodName).searches ++
      ((m.SpecifyServiceInfo svcName methodName).msg.SpecifyServiceInfo svcName
        methodName).searches).length ≤ 1 := by
  unfold message.SpecifyServiceInfo at hfirst hlookup ⊢
  rw [hnil] at hfirst hlookup ⊢
  cases hs : m.svcSearcher with
  | none => simp [hs, NewTransErrorWithMsg] at hfirst
  | some searcher =>
    simp only [hs] at hfirst hlookup ⊢
    cases hf : searcher.SearchService svcName methodName false with
    | none => simp [hf] at hfirst
    | some svc =>
      simp only [hf] at hfirst hlookup ⊢
      cases hg : GoMap.get svc.Methods methodName with
      | none => simp [hg] at hfirst
      | some mt =>
        simp only [hg] at hlookup ⊢
        cases hl : ServiceInfo.MethodInfo (some svc) methodName with
        | none => exact absurd hl hlookup
        | some found => simp [hl]

/-- An instance of memoized resolution: the searcher knows service Echo, whose map and
lookup both hold the method echo. -/
theorem specify_memoized_witness :
    ((deferredMessage (some (searcherOf echoService))).SpecifyServiceInfo "Echo" "echo").err
      = none ∧
    (((deferredMessage (some (searcherOf echoService))).SpecifyServiceInfo "Echo" "echo"
      ).msg.SpecifyServiceInfo "Echo" "echo").err = none ∧
    (((deferredMessage (some (searcherOf echoService))).SpecifyServiceInfo "Echo" "echo"
      ).msg.SpecifyServiceInfo "Echo" "echo").searches = [] :=
  have h := specify_memoized (deferredMessage (some (searcherOf echoService))) "Echo" "echo"
    rfl (by decide) (by decide)
  ⟨by decide, h.1, h.2.2.2.2.1⟩

/-- C4: SpecifyServiceInfo fails with an UnknownService error exactly when the message
has no descriptor and either has no searcher or its searcher, asked with the given
service and method name and strict = false, returns no service; in particular a
message without descriptor and searcher always fails with UnknownService and returns
no descriptor. -/
theorem specify_unknownService_iff (m : message) (svcName methodName : String) :
    (((m.SpecifyServiceInfo svcName methodName).err.map TransError.typeID
        = some TransErrorType.UnknownService) ↔
      (m.targetSvcInfo = none ∧
        (m.svcSearcher = none ∨
          ∃ searcher, m.svcSearcher = some searcher ∧
            searcher.SearchService svcName methodName false = none))) ∧
    (({ m with targetSvcInfo := none, svcSearcher := none } : message).SpecifyServiceInfo
        svcName methodName).err.map TransError.typeID = some TransErrorType.UnknownService ∧
    (({ m with targetSvcInfo := none, svcSearcher := none } : message).SpecifyServiceInfo
        svcName methodName).svcInfo = none := by
  refine ⟨?_, rfl, rfl⟩
  unfold message.SpecifyServiceInfo
  cases ht : m.targetSvcInfo with
  | some s =>
    cases hl : ServiceInfo.MethodInfo (some s) methodName <;> simp [hl, NewTransErrorWithMsg]
  | none =>
    cases hs : m.svcSearcher with
    | none => simp [NewTransErrorWithMsg]
    | some searcher =>
      cases hf : searcher.SearchService svcName methodName false with
      | none => simp [hf, NewTransErrorWithMsg]
      | some svc =>
        cases hg : GoMap.get svc.Methods methodName <;> simp [hf, hg, NewTransErrorWithMsg]

/-- C5: SpecifyServiceInfo fails with an UnknownMethod error exactly when either the
message holds a descriptor whose method lookup finds nothing for the method name, or
the message holds no descriptor and its searcher returns a service whose `Methods` map
has no entry for the method name. -/
theorem specify_unknownMethod_iff (m : message) (svcName methodName : String) :
    ((m.SpecifyServiceInfo svcName methodName).err.map TransError.typeID
        = some TransErrorType.UnknownMethod) ↔
      ((∃ s, m.targetSvcInfo = some s ∧ ServiceInfo.MethodInfo (some s) methodName = none) ∨
       (m.targetSvcInfo = none ∧
          ∃ searcher svc, m.svcSearcher = some searcher ∧
            searcher.SearchService svcName methodName false = some svc ∧
            GoMap.get svc.Methods methodName = none)) := by
  unfold message.SpecifyServiceInfo
  cases ht : m.targetSvcInfo with
  | some s =>
    cases hl : ServiceInfo.MethodInfo (some s) methodName <;> simp [hl, NewTransErrorWithMsg]
  | none =>
    cases hs : m.svcSearcher with
    | none => simp [NewTransErrorWithMsg]
    | some searcher =>
      cases hf : searcher.SearchService svcName methodName false with
      | none => simp [hf, NewTransErrorWithMsg]
      | some svc =>
        cases hg : GoMap.get svc.Methods methodName <;> simp [hf, hg, NewTransErrorWithMsg]

/-- C6: for every message whose descriptor is set and whose method lookup finds the
method name, SpecifyServiceInfo succeeds for every service name, returns that
descriptor, makes no searcher invocation (whether or not a searcher is configured) and
leaves the message unchanged. -/
theorem specify_fast_path (m : message) (s : ServiceInfo) (svcName methodName : String)
    (hset : m.targetSvcInfo = some s)
    (hfound : ServiceInfo.MethodInfo (some s) methodName ≠ none) :
    (m.SpecifyServiceInfo svcName methodName).err = none ∧
    (m.SpecifyServiceInfo svcName methodName).svcInfo = some s ∧
    (m.SpecifyServiceInfo svcName methodName).searches = [] ∧
    (m.SpecifyServiceInfo svcName methodName).msg = m := by
  unfold message.SpecifyServiceInfo
  rw [hset]
  cases hl : ServiceInfo.MethodInfo (some s) methodName with
  | none => exact absurd hl hfound
  | some mt => simp

/-- Witness of C6: a message built with the Echo descriptor, asked under a service name
that is not the descriptor's. -/
theorem specify_fast_path_witness :
    ((directMessage none (some echoService)).SpecifyServiceInfo "Other" "echo").err = none ∧
    ((directMessage none (some echoService)).SpecifyServiceInfo "Other" "echo").searches = [] :=
  have h := specify_fast_path (directMessage none (some echoService)) echoService "Other" "echo"
    rfl (by decide)
  ⟨h.1, h.2.2.1⟩

/-- C7: for every message with no descriptor and a searcher, if the searcher returns a
service for the given names with strict = false and the `Methods` map of that service
has an entry for the method name, SpecifyServiceInfo returns that service and no error,
ServiceInfo() on the message afterwards is that service, every other field of the
message is unchanged, and the searcher was invoked once, with the caller's two names
and strict = false. -/
theorem specify_searcher_success (m : message) (searcher : ServiceSearcher) (svc : ServiceInfo)
    (svcName methodName : String)
    (hnil : m.targetSvcInfo = none)
    (hsearcher : m.svcSearcher = some searcher)
    (hsvc : searcher.SearchService svcName methodName false = some svc)
    (hmethod : GoMap.get svc.Methods methodName ≠ none) :
    (m.SpecifyServiceInfo svcName methodName).svcInfo = some svc ∧
    (m.SpecifyServiceInfo svcName methodName).err = none ∧
    (m.SpecifyServiceInfo svcName methodName).msg.ServiceInfo = some svc ∧
    (m.SpecifyServiceInfo svcName methodName).msg = { m with targetSvcInfo := some svc } ∧
    (m.SpecifyServiceInfo svcName methodName).searches = [(svcName, methodName, false)] := by
  unfold message.SpecifyServiceInfo
  rw [hnil, hsearcher]
  simp only [hsvc]
  cases hg : GoMap.get svc.Methods methodName with
  | none => exact absurd hg hmethod
  | some mt => simp [message.ServiceInfo]

/-- Witness of C7: deferred construction with a searcher that knows service Echo. -/
theorem specify_searcher_success_witness :
    ((deferredMessage (some (searcherOf echoService))).SpecifyServiceInfo "Echo" "echo"
      ).msg.ServiceInfo.map ServiceInfo.ServiceName = some "Echo" ∧
    ((deferredMessage (some (searcherOf echoService))).SpecifyServiceInfo "Echo" "echo"
      ).searches = [("Echo", "echo", false)] :=
  have h := specify_searcher_success (deferredMessage (some (searcherOf echoService)))
    (searcherOf echoService) echoService "Echo" "echo" rfl rfl (by simp [searcherOf, echoService])
    (by decide)
  ⟨by rw [h.2.2.1]; rfl, h.2.2.2.2⟩

/-! ## Lazy payload creation -/

/-- C8: for every message whose payload is not nil, NewData returns false and leaves
the message, payload included, as it was; and whenever a first NewData call returned
true, the payload it created is not nil, and a second NewData call on the message it
left returns false and leaves that message, so Data() is still the container of the
first call. -/
theorem NewData_guard (m : message) (method : String) :
    (m.data ≠ none → m.NewData method = (false, m)) ∧
    (∀ first : String, (m.NewData first).1 = true →
      (m.NewData first).2.Data ≠ none ∧
      (m.NewData first).2.NewData method = (false, (m.NewData first).2) ∧
      ((m.NewData first).2.NewData method).2.Data = (m.NewData first).2.Data) := by
  have guard : ∀ x : message, x.data ≠ none → x.NewData method = (false, x) := by
    intro x hx
    unfold message.NewData
    cases hd : x.data with
    | none => exact absurd hd hx
    | some d => rfl
  refine ⟨guard m, ?_⟩
  intro first hok
  have hdata : (m.NewData first).2.data ≠ none := by
    unfold message.NewData at hok ⊢
    cases hd : m.data with
    | some d => simp [hd] at hok
    | none =>
      simp only [hd] at hok ⊢
      cases hl : ServiceInfo.MethodInfo m.targetSvcInfo first with
      | none => simp [hl, hd] at hok
      | some mt =>
        simp only [hl] at hok ⊢
        cases ha : mt.NewArgs with
        | none => simp [ha] at hok
        | some v => simp [ha]
  exact ⟨hdata, guard _ hdata, by rw [guard _ hdata]⟩

/-- Witness of C8: a message built with payload 9, and a message without payload whose
Echo descriptor creates one on the first call. -/
theorem NewData_guard_witness :
    (directMessage (some { ref := 9 }) (some echoService)).NewData "echo"
      = (false, directMessage (some { ref := 9 }) (some echoService)) ∧
    ((directMessage none (some echoService)).NewData "echo").1 = true ∧
    (((directMessage none (some echoService)).NewData "echo").2.NewData "echo").1 = false ∧
    (((directMessage none (some echoService)).NewData "echo").2.NewData "echo").2.Data
      = some { ref := 5 } :=
  have h1 := (NewData_guard (directMessage (some { ref := 9 }) (some echoService)) "echo").1
    (by decide)
  have h2 := (NewData_guard (directMessage none (some echoService)) "echo").2 "echo" (by decide)
  ⟨h1, by decide, by rw [h2.2.1], by rw [h2.2.2]; decide⟩

/-- C9: for every message with a nil payload and a descriptor, NewData returns true
exactly when the descriptor's method lookup finds a method descriptor and the argument
factory of that descriptor returns a value that is not nil; when it returns true,
Data() is the value the factory returned; when it returns false the payload is still
nil; and no field other than the payload differs from before. -/
theorem NewData_creates (m : message) (s : ServiceInfo) (method : String)
    (hdata : m.data = none) (hsvc : m.targetSvcInfo = some s) :
    ((m.NewData method).1 = true ↔
      ∃ mt, ServiceInfo.MethodInfo (some s) method = some mt ∧ mt.NewArgs ≠ none) ∧
    (∀ mt, ServiceInfo.MethodInfo (some s) method = some mt → (m.NewData method).1 = true →
      (m.NewData method).2.Data = mt.NewArgs) ∧
    ((m.NewData method).1 = false → (m.NewData method).2.Data = none) ∧
    (m.NewData method).2 = { m with data := (m.NewData method).2.data } := by
  cases m
  simp only at hdata hsvc
  subst hdata hsvc
  unfold message.NewData message.Data
  cases hl : ServiceInfo.MethodInfo (some s) method with
  | none => simp [hl]
  | some mt =>
    cases ha : mt.NewArgs with
    | none => simp [hl, ha]
    | some v => simp [hl, ha]

/-- Witness of C9: a message without payload whose Echo descriptor has the method. -/
theorem NewData_creates_witness :
    ((directMessage none (some echoService)).NewData "echo").1 = true ∧
    ((directMessage none (some echoService)).NewData "echo").2.Data = echoMethod.NewArgs ∧
    ((directMessage none (some echoService)).NewData "none").1 = false ∧
    ((directMessage none (some echoService)).NewData "none").2.Data = none :=
  have h := NewData_creates (directMessage none (some echoService)) echoService "echo" rfl rfl
  have g := NewData_creates (directMessage none (some echoService)) echoService "none" rfl rfl
  ⟨h.1.2 ⟨echoMethod, by decide, by decide⟩,
   h.2.1 echoMethod (by decide) (h.1.2 ⟨echoMethod, by decide, by decide⟩),
   by decide, g.2.2.1 (by decide)⟩

/-- C10: for every message with no descriptor and a nil payload, NewData returns false
for every method name and leaves the message as it was; the call has a result, there
being no failing path in it. -/
theorem NewData_unresolved (m : message) (method : String)
    (hsvc : m.targetSvcInfo = none) (hdata : m.data = none) :
    m.NewData method = (false, m) ∧ (m.NewData method).2.Data = none := by
  unfold message.NewData message.Data
  rw [hdata, hsvc]
  simp [ServiceInfo.MethodInfo, hdata]

/-- Witness of C10: deferred construction with a nil descriptor and a searcher, before
any resolution. -/
theorem NewData_unresolved_witness :
    ((deferredMessage (some (searcherOf echoService))).NewData "echo").1 = false ∧
    ((deferredMessage (some (searcherOf echoService))).NewData "echo").2.Data = none :=
  have h := NewData_unresolved (deferredMessage (some (searcherOf echoService))) "echo" rfl rfl
  ⟨by rw [h.1], h.2⟩

/-! ## The transport-info store: put, reset, namespaces -/

/-- C11: for every store and every argument map that is not nil, after PutTransIntInfo
(and likewise PutTransStrInfo) a key of the argument reads the argument value, a key
only the store held reads the value the store held, and no other key is present, in the
replacing branch as in the adding one. On a new store, put of 1:a then put of 2:b
leaves 1:a and 2:b and nothing else; on a store holding 1:a, put of 1:z leaves 1:z
only. -/
theorem put_is_right_biased_union (ti : transInfo) (kvInt : List (Fin 65536 × String))
    (kvStr : List (String × String)) :
    (∀ k, GoMap.get (ti.PutTransIntInfo (some kvInt)).TransIntInfo k =
      (GoMap.get (some kvInt) k).or (GoMap.get ti.TransIntInfo k)) ∧
    (∀ k, GoMap.get (ti.PutTransStrInfo (some kvStr)).TransStrInfo k =
      (GoMap.get (some kvStr) k).or (GoMap.get ti.TransStrInfo k)) ∧
    GoMap.get ((newTransInfo.PutTransIntInfo (some [(1, "a")])).PutTransIntInfo
      (some [(2, "b")])).TransIntInfo 1 = some "a" ∧
    GoMap.get ((newTransInfo.PutTransIntInfo (some [(1, "a")])).PutTransIntInfo
      (some [(2, "b")])).TransIntInfo 2 = some "b" ∧
    GoMap.keys ((newTransInfo.PutTransIntInfo (some [(1, "a")])).PutTransIntInfo
      (some [(2, "b")])).TransIntInfo = [2, 1] ∧
    GoMap.get ((newTransInfo.PutTransIntInfo (some [(1, "a")])).PutTransIntInfo
      (some [(1, "z")])).TransIntInfo 1 = some "z" ∧
    GoMap.keys ((newTransInfo.PutTransIntInfo (some [(1, "a")])).PutTransIntInfo
      (some [(1, "z")])).TransIntInfo = [1] := by
  refine ⟨?_, ?_, by decide, by decide, by decide, by decide, by decide⟩
  · intro k
    unfold transInfo.PutTransIntInfo transInfo.TransIntInfo
    by_cases h : GoMap.len ti.intInfo = 0
    · simp only [h, if_true]
      rw [GoMap.get_eq_none_of_len ti.intInfo h k]
      cases GoMap.get (some kvInt) k <;> rfl
    · simp only [h, if_false]
      exact GoMap.get_putAll ti.intInfo (some kvInt) k
  · intro k
    unfold transInfo.PutTransStrInfo transInfo.TransStrInfo
    by_cases h : GoMap.len ti.strInfo = 0
    · simp only [h, if_true]
      rw [GoMap.get_eq_none_of_len ti.strInfo h k]
      cases GoMap.get (some kvStr) k <;> rfl
    · simp only [h, if_false]
      exact GoMap.get_putAll ti.strInfo (some kvStr) k

/-! ## Pool instances and construction -/

theorem poolGet_fst {α : Type} (new : α) (pool : List α) (pick : Option Nat) :
    (poolGet new pool pick).1 = new ∨ (poolGet new pool pick).1 ∈ pool := by
  unfold poolGet
  cases pick with
  | none => exact Or.inl rfl
  | some i =>
    dsimp only
    cases h : pool.get? i with
    | none => exact Or.inl rfl
    | some x => exact Or.inr (List.get?_mem h)

theorem poolGet_snd_subset {α : Type} (new : α) (pool : List α) (pick : Option Nat) :
    ∀ x ∈ (poolGet new pool pick).2, x ∈ pool := by
  unfold poolGet
  cases pick with
  | none => exact fun x hx => hx
  | some i =>
    dsimp only
    cases h : pool.get? i with
    | none => exact fun x hx => hx
    | some y => exact fun x hx => (List.eraseIdx_sublist pool i).subset hx

theorem zero_fst_eq (m : message) (pool : List transInfo) :
    (m.zero pool).1 =
      { msgType := InvalidMessageType, data := none, rpcInfo := none,
        targetSvcInfo := some emptyServiceInfo, svcSearcher := none, rpcRole := -1,
        compressType := NoCompress, payloadSize := 0, transInfo := none,
        tags := GoMap.clear m.tags, protocol := emptyProtocolInfo,
        payloadCodec := m.payloadCodec } := by
  unfold message.zero
  cases h : m.transInfo <;> rfl

theorem zero_snd_eq (m : message) (pool : List transInfo) :
    (m.zero pool).2 = match m.transInfo with
      | some ti => ti.Recycle pool
      | none => pool := by
  unfold message.zero
  cases h : m.transInfo <;> rfl

/-- What every instance the message pool hands out has in common. -/
theorem pooled_message_fields (x : message) (h : x = newMessage ∨ x.ResetState) :
    x.tags = some [] ∧ x.payloadSize = 0 ∧ x.protocol = emptyProtocolInfo ∧
    x.svcSearcher = none ∧ x.data = none := by
  rcases h with h | ⟨m, pool, ht, h⟩
  · subst h
    exact ⟨rfl, rfl, rfl, rfl, rfl⟩
  · subst h
    rw [zero_fst_eq]
    refine ⟨?_, rfl, rfl, rfl, rfl⟩
    cases hm : m.tags with
    | none => exact absurd hm ht
    | some l => exact GoMap.clear_some l

/-- What every instance the store pool hands out has in common. -/
theorem pooled_store_fields (t : transInfo) (h : t = newTransInfo ∨ t.ResetState) :
    GoMap.entries t.intInfo = [] ∧ GoMap.entries t.strInfo = [] := by
  rcases h with h | ⟨u, h⟩
  · subst h
    exact ⟨rfl, rfl⟩
  · subst h
    exact ⟨GoMap.entries_clear u.intInfo, GoMap.entries_clear u.strInfo⟩

theorem poolGet_message_pooled (p : Pools) (hp : p.Recycled) (pick : Option Nat) :
    (poolGet newMessage p.messagePool pick).1 = newMessage ∨
      (poolGet newMessage p.messagePool pick).1.ResetState := by
  rcases poolGet_fst newMessage p.messagePool pick with h | h
  · exact Or.inl h
  · exact Or.inr (hp.1 _ h)

theorem poolGet_store_pooled (p : Pools) (hp : p.Recycled) (pick : Option Nat) :
    (poolGet newTransInfo p.transInfoPool pick).1 = newTransInfo ∨
      (poolGet newTransInfo p.transInfoPool pick).1.ResetState := by
  rcases poolGet_fst newTransInfo p.transInfoPool pick with h | h
  · exact Or.inl h
  · exact Or.inr (hp.2 _ h)

theorem newMessage_pools_recycled (p : Pools) (hp : p.Recycled) (pickMsg pickInfo : Option Nat) :
    Pools.Recycled { messagePool := (poolGet newMessage p.messagePool pickMsg).2,
                     transInfoPool := (poolGet newTransInfo p.transInfoPool pickInfo).2 } :=
  ⟨fun x hx => hp.1 x (poolGet_snd_subset _ _ _ x hx),
   fun t ht => hp.2 t (poolGet_snd_subset _ _ _ t ht)⟩

theorem recycle_pools_recycled (m : message) (htags : m.tags ≠ none) (p : Pools)
    (hp : p.Recycled) : (m.Recycle p).Recycled := by
  unfold message.Recycle
  constructor
  · intro x hx
    rcases List.mem_cons.mp hx with h | h
    · exact ⟨m, p.transInfoPool, htags, h⟩
    · exact hp.1 x h
  · intro t ht
    simp only [zero_snd_eq] at ht
    cases hm : m.transInfo with
    | none =>
      rw [hm] at ht
      exact hp.2 t ht
    | some ti =>
      rw [hm] at ht
      rcases List.mem_cons.mp ht with h | h
      · exact ⟨ti, h⟩
      · exact hp.2 t h

theorem specify_msg_frame (m : message) (svcName methodName : String) :
    (m.SpecifyServiceInfo svcName methodName).msg.transInfo = m.transInfo ∧
    (m.SpecifyServiceInfo svcName methodName).msg.tags = m.tags := by
  unfold message.SpecifyServiceInfo
  cases m.targetSvcInfo with
  | some s =>
    dsimp only
    cases ServiceInfo.MethodInfo (some s) methodName <;> exact ⟨rfl, rfl⟩
  | none =>
    dsimp only
    cases m.svcSearcher with
    | none => exact ⟨rfl, rfl⟩
    | some searcher =>
      dsimp only
      cases searcher.SearchService svcName methodName false with
      | none => exact ⟨rfl, rfl⟩
      | some svc =>
        dsimp only
        cases GoMap.get svc.Methods methodName <;> exact ⟨rfl, rfl⟩

theorem newData_msg_frame (m : message) (method : String) :
    (m.NewData method).2.transInfo = m.transInfo ∧ (m.NewData method).2.tags = m.tags := by
  unfold message.NewData
  cases m.data with
  | some d => exact ⟨rfl, rfl⟩
  | none =>
    dsimp only
    cases ServiceInfo.MethodInfo m.targetSvcInfo method with
    | none =>
      dsimp only
      cases m.data <;> exact ⟨rfl, rfl⟩
    | some mt =>
      dsimp only
      cases mt.NewArgs <;> exact ⟨rfl, rfl⟩

/-- One operation on a message that has a store and allocated tags succeeds and leaves
a message that has a store and the same tags map. -/
theorem applyOp_keeps (m : message) (o : Op) (hti : m.transInfo ≠ none) :
    ∃ m2, m.applyOp o = some m2 ∧ m2.transInfo ≠ none ∧ m2.tags = m.tags := by
  cases o with
  | SetMessageType mt => exact ⟨_, rfl, hti, rfl⟩
  | SetPayloadLen size => exact ⟨_, rfl, hti, rfl⟩
  | SetProtocolInfo pt => exact ⟨_, rfl, hti, rfl⟩
  | SetPayloadCodec pc => exact ⟨_, rfl, hti, rfl⟩
  | SpecifyServiceInfo svcName methodName =>
    refine ⟨_, rfl, ?_, (specify_msg_frame m svcName methodName).2⟩
    rw [(specify_msg_frame m svcName methodName).1]
    exact hti
  | NewData method =>
    refine ⟨_, rfl, ?_, (newData_msg_frame m method).2⟩
    rw [(newData_msg_frame m method).1]
    exact hti
  | FillAsSend recvMsg => exact ⟨_, rfl, hti, rfl⟩
  | FillAsRecv sendMsg => exact ⟨_, rfl, hti, rfl⟩
  | PutTransIntInfo kvInfo =>
    cases h : m.transInfo with
    | none => exact absurd h hti
    | some ti =>
      refine ⟨{ m with transInfo := some (ti.PutTransIntInfo kvInfo) }, ?_, by simp, rfl⟩
      simp [message.applyOp, message.TransInfo, h]
  | PutTransStrInfo kvInfo =>
    cases h : m.transInfo with
    | none => exact absurd h hti
    | some ti =>
      refine ⟨{ m with transInfo := some (ti.PutTransStrInfo kvInfo) }, ?_, by simp, rfl⟩
      simp [message.applyOp, message.TransInfo, h]

/-- A sequence of operations on a message that has a store succeeds and leaves a
message that has a store and the same tags map. -/
theorem run_keeps (ops : List Op) (m : message) (hti : m.transInfo ≠ none) :
    ∃ m2, m.run ops = some m2 ∧ m2.transInfo ≠ none ∧ m2.tags = m.tags := by
  induction ops generalizing m with
  | nil => exact ⟨m, rfl, hti, rfl⟩
  | cons o os ih =>
    obtain ⟨m1, h1, hti1, htags1⟩ := applyOp_keeps m o hti
    obtain ⟨m2, h2, hti2, htags2⟩ := ih m1 hti1
    refine ⟨m2, ?_, hti2, htags2.trans htags1⟩
    simp [message.run, h1, h2]

/-- C12: for every two messages, after FillSendMsgFromRecvMsg the send message has the
protocol info and the payload codec of the receive message, whatever it held, and its
other fields are as before. On pointers, where the two arguments may be one message:
the send message reads the receive message's two values, the receive message is as
before, and so is every other message. -/
theorem fill_copies_protocol_and_codec (recvMsg sendMsg : message) (heap : Nat → message)
    (r s : Nat) :
    (FillSendMsgFromRecvMsg recvMsg sendMsg).ProtocolInfo = recvMsg.ProtocolInfo ∧
    (FillSendMsgFromRecvMsg recvMsg sendMsg).PayloadCodec = recvMsg.PayloadCodec ∧
    FillSendMsgFromRecvMsg recvMsg sendMsg =
      { sendMsg with protocol := recvMsg.protocol, payloadCodec := recvMsg.payloadCodec } ∧
    (FillSendMsgFromRecvMsgAt heap r s s).ProtocolInfo = (heap r).ProtocolInfo ∧
    (FillSendMsgFromRecvMsgAt heap r s s).PayloadCodec = (heap r).PayloadCodec ∧
    FillSendMsgFromRecvMsgAt heap r s s =
      { heap s with protocol := (heap r).protocol, payloadCodec := (heap r).payloadCodec } ∧
    FillSendMsgFromRecvMsgAt heap r s r = heap r ∧
    (∀ a, a ≠ s → FillSendMsgFromRecvMsgAt heap r s a = heap a) := by
  have hs : FillSendMsgFromRecvMsgAt heap r s s =
      { heap s with protocol := (heap r).protocol, payloadCodec := (heap r).payloadCodec } := by
    unfold FillSendMsgFromRecvMsgAt
    by_cases hrs : r = s
    · subst hrs
      simp [message.SetProtocolInfo, message.SetPayloadCodec, message.ProtocolInfo,
        message.PayloadCodec]
    · simp [message.SetProtocolInfo, message.SetPayloadCodec, message.ProtocolInfo,
        message.PayloadCodec, Function.update_noteq hrs]
  have ho : ∀ a, a ≠ s → FillSendMsgFromRecvMsgAt heap r s a = heap a := by
    intro a ha
    unfold FillSendMsgFromRecvMsgAt
    simp [Function.update_noteq ha]
  refine ⟨rfl, rfl, rfl, by rw [hs]; rfl, by rw [hs]; rfl, hs, ?_, ho⟩
  by_cases hrs : r = s
  · subst hrs
    rw [hs]
  · exact ho r hrs

theorem recycledPools_recycled : recycledPools.Recycled :=
  ⟨fun x hx => ⟨usedMessage, [], by decide, by simpa [recycledPools, message.Recycle,
      emptyPools] using hx⟩,
   fun t ht => ⟨newTransInfo, by simpa [recycledPools, message.Recycle, emptyPools,
      zero_snd_eq, usedMessage, NewMessage, poolGet, message.SetPayloadCodec,
      transInfo.Recycle] using ht⟩⟩

/-- C13: when the pools hold only instances reset by Recycle (any other instance handed
out is new), NewMessage returns a message with the given payload, descriptor, rpc info,
message type and role, a store whose two maps are empty, allocated empty tags, payload
length 0, the zero protocol info and no searcher; NewMessageWithNewer returns a message
with the same properties except that its searcher is the given one and its payload is
nil. -/
theorem construction_postcondition (p : Pools) (hp : p.Recycled) (pickMsg pickInfo : Option Nat)
    (data : Option Obj) (svcInfo : Option ServiceInfo) (searcher : Option ServiceSearcher)
    (ri : Option RPCInfo) (msgType : MessageType) (rpcRole : RPCRole) :
    ((NewMessage p pickMsg pickInfo data svcInfo ri msgType rpcRole).1.Data = data ∧
     (NewMessage p pickMsg pickInfo data svcInfo ri msgType rpcRole).1.ServiceInfo = svcInfo ∧
     (NewMessage p pickMsg pickInfo data svcInfo ri msgType rpcRole).1.RPCInfo = ri ∧
     (NewMessage p pickMsg pickInfo data svcInfo ri msgType rpcRole).1.MessageType = msgType ∧
     (NewMessage p pickMsg pickInfo data svcInfo ri msgType rpcRole).1.RPCRole = rpcRole ∧
     (∃ ti, (NewMessage p pickMsg pickInfo data svcInfo ri msgType rpcRole).1.TransInfo = some ti ∧
        GoMap.entries ti.TransIntInfo = [] ∧ GoMap.entries ti.TransStrInfo = []) ∧
     (NewMessage p pickMsg pickInfo data svcInfo ri msgType rpcRole).1.Tags = some [] ∧
     (NewMessage p pickMsg pickInfo data svcInfo ri msgType rpcRole).1.PayloadLen = 0 ∧
     (NewMessage p pickMsg pickInfo data svcInfo ri msgType rpcRole).1.ProtocolInfo
        = emptyProtocolInfo ∧
     (NewMessage p pickMsg pickInfo data svcInfo ri msgType rpcRole).1.svcSearcher = none) ∧
    ((NewMessageWithNewer p pickMsg pickInfo svcInfo searcher ri msgType rpcRole).1.Data = none ∧
     (NewMessageWithNewer p pickMsg pickInfo svcInfo searcher ri msgType rpcRole).1.ServiceInfo
        = svcInfo ∧
     (NewMessageWithNewer p pickMsg pickInfo svcInfo searcher ri msgType rpcRole).1.RPCInfo = ri ∧
     (NewMessageWithNewer p pickMsg pickInfo svcInfo searcher ri msgType rpcRole).1.MessageType
        = msgType ∧
     (NewMessageWithNewer p pickMsg pickInfo svcInfo searcher ri msgType rpcRole).1.RPCRole
        = rpcRole ∧
     (∃ ti, (NewMessageWithNewer p pickMsg pickInfo svcInfo searcher ri msgType rpcRole).1.TransInfo
          = some ti ∧
        GoMap.entries ti.TransIntInfo = [] ∧ GoMap.entries ti.TransStrInfo = []) ∧
     (NewMessageWithNewer p pickMsg pickInfo svcInfo searcher ri msgType rpcRole).1.Tags
        = some [] ∧
     (NewMessageWithNewer p pickMsg pickInfo svcInfo searcher ri msgType rpcRole).1.PayloadLen
        = 0 ∧
     (NewMessageWithNewer p pickMsg pickInfo svcInfo searcher ri msgType rpcRole).1.ProtocolInfo
        = emptyProtocolInfo ∧
     (NewMessageWithNewer p pickMsg pickInfo svcInfo searcher ri msgType rpcRole).1.svcSearcher
        = searcher) := by
  obtain ⟨htags, hsize, hproto, hsearch, hdata⟩ :=
    pooled_message_fields _ (poolGet_message_pooled p hp pickMsg)
  obtain ⟨hint, hstr⟩ := pooled_store_fields _ (poolGet_store_pooled p hp pickInfo)
  unfold NewMessage NewMessageWithNewer
  exact ⟨⟨rfl, rfl, rfl, rfl, rfl, ⟨_, rfl, hint, hstr⟩, htags, hsize, hproto, hsearch⟩,
    ⟨hdata, rfl, rfl, rfl, rfl, ⟨_, rfl, hint, hstr⟩, htags, hsize, hproto, rfl⟩⟩

/-- Witness of C13: the pools hold the recycled used message and its store, and both
constructions are handed these pooled instances. -/
theorem construction_postcondition_witness :
    recycledPools.Recycled ∧
    (NewMessage recycledPools (some 0) (some 0) (some { ref := 3 }) (some echoService) none
      Reply Server).1.Tags = some [] ∧
    (NewMessageWithNewer recycledPools (some 0) (some 0) none (some (searcherOf echoService))
      none Call Server).1.Data = none :=
  have hp : recycledPools.Recycled := recycledPools_recycled
  have h := construction_postcondition recycledPools hp (some 0) (some 0) (some { ref := 3 })
    (some echoService) (some (searcherOf echoService)) none Reply Server
  have g := construction_postcondition recycledPools hp (some 0) (some 0) (some { ref := 3 })
    none (some (searcherOf echoService)) none Call Server
  ⟨hp, h.1.2.2.2.2.2.2.1, g.2.1⟩

/-- C14: when the pools hold only instances reset by Recycle, a message produced by
NewMessage or by NewMessageWithNewer has a store and allocated tags, and after every
finite sequence of the operations other than Recycle (the four setters,
SpecifyServiceInfo, NewData, FillSendMsgFromRecvMsg in either position, the two puts on
its store) every operation has succeeded and the message still has a store and the same
allocated tags map. A reset then leaves it with no store and with allocated, empty
tags, and recycling it leaves pools that again hold only reset instances. -/
theorem live_message_keeps_store_and_tags (p : Pools) (hp : p.Recycled)
    (pickMsg pickInfo : Option Nat) (data : Option Obj) (svcInfo : Option ServiceInfo)
    (searcher : Option ServiceSearcher) (ri : Option RPCInfo) (msgType : MessageType)
    (rpcRole : RPCRole) (ops : List Op) :
    (∃ m2, (NewMessage p pickMsg pickInfo data svcInfo ri msgType rpcRole).1.run ops = some m2 ∧
      m2.TransInfo ≠ none ∧ m2.Tags ≠ none ∧
      (∀ pool, (m2.zero pool).1.TransInfo = none ∧ (m2.zero pool).1.Tags = some []) ∧
      (m2.Recycle (NewMessage p pickMsg pickInfo data svcInfo ri msgType rpcRole).2).Recycled) ∧
    (∃ m2, (NewMessageWithNewer p pickMsg pickInfo svcInfo searcher ri msgType rpcRole).1.run ops
        = some m2 ∧
      m2.TransInfo ≠ none ∧ m2.Tags ≠ none ∧
      (∀ pool, (m2.zero pool).1.TransInfo = none ∧ (m2.zero pool).1.Tags = some []) ∧
      (m2.Recycle (NewMessageWithNewer p pickMsg pickInfo svcInfo searcher ri msgType
        rpcRole).2).Recycled) := by
  have hc := construction_postcondition p hp pickMsg pickInfo data svcInfo searcher ri msgType
    rpcRole
  have finish : ∀ (m : message) (q : Pools), q.Recycled → m.transInfo ≠ none →
      m.tags = some [] →
      ∃ m2, m.run ops = some m2 ∧ m2.TransInfo ≠ none ∧ m2.Tags ≠ none ∧
        (∀ pool, (m2.zero pool).1.TransInfo = none ∧ (m2.zero pool).1.Tags = some []) ∧
        (m2.Recycle q).Recycled := by
    intro m q hq hti htags
    obtain ⟨m2, hrun, hti2, htags2⟩ := run_keeps ops m hti
    have ht2 : m2.tags = some [] := htags2.trans htags
    have hne : m2.tags ≠ none := by rw [ht2]; simp
    refine ⟨m2, hrun, hti2, hne, ?_, recycle_pools_recycled m2 hne q hq⟩
    intro pool
    rw [zero_fst_eq]
    refine ⟨rfl, ?_⟩
    show GoMap.clear m2.tags = some []
    rw [ht2]
    exact GoMap.clear_some []
  constructor
  · obtain ⟨ti, hti, _, _⟩ := hc.1.2.2.2.2.2.1
    refine finish _ _ (newMessage_pools_recycled p hp pickMsg pickInfo) ?_ hc.1.2.2.2.2.2.2.1
    intro hn
    rw [message.TransInfo, hn] at hti
    exact Option.noConfusion hti
  · obtain ⟨ti, hti, _, _⟩ := hc.2.2.2.2.2.2.1
    refine finish _ _ (newMessage_pools_recycled p hp pickMsg pickInfo) ?_ hc.2.2.2.2.2.2.2.1
    intro hn
    rw [message.TransInfo, hn] at hti
    exact Option.noConfusion hti

/-- Witness of C14: a message built by deferred construction on the recycled pools,
then resolved, given a payload, retyped, filled from another message and written to
through both puts of its store (one of them with a nil map). -/
theorem live_message_keeps_store_and_tags_witness :
    recycledPools.Recycled ∧
    ∃ m2, (NewMessageWithNewer recycledPools (some 0) (some 0) none
        (some (searcherOf echoService)) none Call Server).1.run
        [Op.SpecifyServiceInfo "Echo" "echo", Op.NewData "echo", Op.SetMessageType Reply,
         Op.SetPayloadLen 12, Op.SetProtocolInfo (NewProtocolInfo 1 2),
         Op.SetPayloadCodec (some { ref := 4 }), Op.FillAsSend usedMessage,
         Op.FillAsRecv usedMessage, Op.PutTransIntInfo (some [(1, "a")]),
         Op.PutTransStrInfo none] = some m2 ∧
      m2.TransInfo ≠ none ∧ m2.Tags ≠ none :=
  have h := (live_message_keeps_store_and_tags recycledPools recycledPools_recycled (some 0)
    (some 0) none none (some (searcherOf echoService)) none Call Server
    [Op.SpecifyServiceInfo "Echo" "echo", Op.NewData "echo", Op.SetMessageType Reply,
     Op.SetPayloadLen 12, Op.SetProtocolInfo (NewProtocolInfo 1 2),
     Op.SetPayloadCodec (some { ref := 4 }), Op.FillAsSend usedMessage,
     Op.FillAsRecv usedMessage, Op.PutTransIntInfo (some [(1, "a")]),
     Op.PutTransStrInfo none]).2
  ⟨recycledPools_recycled, h.elim fun m2 hm => ⟨m2, hm.1, hm.2.1, hm.2.2.1⟩⟩

/-! ## Errors of service resolution -/

theorem occursIn_self (x : String) : occursIn x x := List.infix_refl x.data

theorem occursIn_append_left {x s : String} (h : occursIn x s) (t : String) :
    occursIn x (s ++ t) := by
  unfold occursIn at *
  rw [String.data_append]
  exact h.trans (List.prefix_append s.data t.data).isInfix

theorem occursIn_append_right {x s : String} (h : occursIn x s) (t : String) :
    occursIn x (t ++ s) := by
  unfold occursIn at *
  rw [String.data_append]
  exact h.trans (List.suffix_append t.data s.data).isInfix

/-- C15 fails as stated: resolving service Echo, method echo on a message with no
descriptor and no searcher returns an UnknownService error whose message is the fixed
text `svcSearcher is nil`, in which neither the service name nor the method name
occurs. -/
theorem nil_searcher_error_names_nothing :
    ((deferredMessage none).SpecifyServiceInfo "Echo" "echo").err
      = some (NewTransErrorWithMsg .UnknownService "svcSearcher is nil") ∧
    ¬ occursIn "Echo" "svcSearcher is nil" ∧
    ¬ occursIn "echo" "svcSearcher is nil" := by
  refine ⟨by decide, by decide, by decide⟩

/-- C15, amended: every UnknownMethod error SpecifyServiceInfo returns has a message in
which the requested method name occurs; every UnknownService error it returns while a
searcher is configured has a message in which the requested service name (and the
method name) occurs; the UnknownService error it returns while no searcher is
configured has the fixed message `svcSearcher is nil`. -/
theorem specify_error_message (m : message) (svcName methodName : String) (e : TransError)
    (herr : (m.SpecifyServiceInfo svcName methodName).err = some e) :
    (e.typeID = TransErrorType.UnknownMethod → occursIn methodName e.message) ∧
    (e.typeID = TransErrorType.UnknownService → m.svcSearcher ≠ none →
      occursIn svcName e.message ∧ occursIn methodName e.message) ∧
    (e.typeID = TransErrorType.UnknownService → m.svcSearcher = none →
      e.message = "svcSearcher is nil") := by
  unfold message.SpecifyServiceInfo at herr
  cases ht : m.targetSvcInfo with
  | some s =>
    rw [ht] at herr
    dsimp only at herr
    cases hl : ServiceInfo.MethodInfo (some s) methodName with
    | some mt => rw [hl] at herr; exact Option.noConfusion herr
    | none =>
      rw [hl] at herr
      have he : e = NewTransErrorWithMsg .UnknownMethod ("unknown method " ++ methodName) :=
        (Option.some.inj herr).symm
      subst he
      refine ⟨fun _ => occursIn_append_right (occursIn_self methodName) _, ?_, ?_⟩
      · intro h; exact TransErrorType.noConfusion h
      · intro h; exact TransErrorType.noConfusion h
  | none =>
    rw [ht] at herr
    dsimp only at herr
    cases hs : m.svcSearcher with
    | none =>
      rw [hs] at herr
      have he : e = NewTransErrorWithMsg .UnknownService "svcSearcher is nil" :=
        (Option.some.inj herr).symm
      subst he
      refine ⟨?_, ?_, fun _ _ => rfl⟩
      · intro h; exact TransErrorType.noConfusion h
      · intro _ h; exact absurd rfl h
    | some searcher =>
      rw [hs] at herr
      dsimp only at herr
      cases hf : searcher.SearchService svcName methodName false with
      | none =>
        rw [hf] at herr
        have he : e = NewTransErrorWithMsg .UnknownService
            ("unknown service " ++ svcName ++ ", method " ++ methodName) :=
          (Option.some.inj herr).symm
        subst he
        refine ⟨?_, fun _ _ => ⟨?_, ?_⟩, ?_⟩
        · intro h; exact TransErrorType.noConfusion h
        · exact occursIn_append_left (occursIn_append_left
            (occursIn_append_right (occursIn_self svcName) _) _) _
        · exact occursIn_append_right (occursIn_self methodName) _
        · intro _ h; exact Option.noConfusion h
      | some svc =>
        rw [hf] at herr
        dsimp only at herr
        cases hg : GoMap.get svc.Methods methodName with
        | some mt => rw [hg] at herr; exact Option.noConfusion herr
        | none =>
          rw [hg] at herr
          have he : e = NewTransErrorWithMsg .UnknownMethod
              ("unknown method " ++ methodName ++ " (service " ++ svcName ++ ")") :=
            (Option.some.inj herr).symm
          subst he
          refine ⟨fun _ => ?_, ?_, ?_⟩
          · exact occursIn_append_left (occursIn_append_left (occursIn_append_left
              (occursIn_append_right (occursIn_self methodName) _) _) _) _
          · intro h; exact TransErrorType.noConfusion h
          · intro h; exact TransErrorType.noConfusion h

/-- Witness of C15, amended: a searcher that knows only Echo is asked for service
Other. -/
theorem specify_error_message_witness :
    ((deferredMessage (some (searcherOf echoService))).SpecifyServiceInfo "Other" "echo").err
      = some (NewTransErrorWithMsg .UnknownService "unknown service Other, method echo") ∧
    occursIn "Other" "unknown service Other, method echo" :=
  have h := specify_error_message (deferredMessage (some (searcherOf echoService))) "Other"
    "echo" (NewTransErrorWithMsg .UnknownService "unknown service Other, method echo")
    (by decide)
  ⟨by decide, (h.2.1 rfl (by simp [deferredMessage, NewMessageWithNewer])).1⟩

/-- C17: for every message and every service and method name, when SpecifyServiceInfo
returns an error the descriptor it returns is nil and the message is as it was before
the call; a service the searcher found that lacks the method is not stored on the
message. -/
theorem specify_failure_is_atomic (m : message) (svcName methodName : String)
    (herr : (m.SpecifyServiceInfo svcName methodName).err ≠ none) :
    (m.SpecifyServiceInfo svcName methodName).svcInfo = none ∧
    (m.SpecifyServiceInfo svcName methodName).msg = m ∧
    (m.SpecifyServiceInfo svcName methodName).msg.ServiceInfo = m.ServiceInfo := by
  have key : (m.SpecifyServiceInfo svcName methodName).svcInfo = none ∧
      (m.SpecifyServiceInfo svcName methodName).msg = m := by
    unfold message.SpecifyServiceInfo at herr ⊢
    cases ht : m.targetSvcInfo with
    | some s =>
      rw [ht] at herr
      dsimp only at herr ⊢
      cases hl : ServiceInfo.MethodInfo (some s) methodName with
      | some mt => rw [hl] at herr; exact absurd rfl herr
      | none => exact ⟨rfl, rfl⟩
    | none =>
      rw [ht] at herr
      dsimp only at herr ⊢
      cases hs : m.svcSearcher with
      | none => exact ⟨rfl, rfl⟩
      | some searcher =>
        rw [hs] at herr
        dsimp only at herr ⊢
        cases hf : searcher.SearchService svcName methodName false with
        | none => exact ⟨rfl, rfl⟩
        | some svc =>
          rw [hf] at herr
          dsimp only at herr ⊢
          cases hg : GoMap.get svc.Methods methodName with
          | some mt => rw [hg] at herr; exact absurd rfl herr
          | none => exact ⟨rfl, rfl⟩
  exact ⟨key.1, key.2, by rw [key.2]⟩

/-- Witness of C17: the searcher finds service Echo, which has no method named absent;
the message still has no descriptor afterwards. -/
theorem specify_failure_is_atomic_witness :
    ((deferredMessage (some (searcherOf echoService))).SpecifyServiceInfo "Echo" "absent"
      ).err.map TransError.typeID = some TransErrorType.UnknownMethod ∧
    ((deferredMessage (some (searcherOf echoService))).SpecifyServiceInfo "Echo" "absent"
      ).svcInfo = none ∧
    ((deferredMessage (some (searcherOf echoService))).SpecifyServiceInfo "Echo" "absent"
      ).msg.ServiceInfo = none :=
  have h := specify_failure_is_atomic (deferredMessage (some (searcherOf echoService))) "Echo"
    "absent" (by decide)
  ⟨by decide, h.1, by rw [h.2.2]; rfl⟩

/-! ## Constants, store reset, repeated reset -/

/-- C16: the message type constants are Invalid = 0, Call = 1, Reply = 2, Exception = 3,
Oneway = 4, Stream = 5, Heartbeat = 6: pairwise distinct, exactly the values 0 to 6 in
order, and 0 is the message type of every reset message. -/
theorem messageType_wire_values :
    InvalidMessageType = 0 ∧ Call = 1 ∧ Reply = 2 ∧ Exception = 3 ∧ Oneway = 4 ∧
    Stream = 5 ∧ Heartbeat = 6 ∧
    [InvalidMessageType, Call, Reply, Exception, Oneway, Stream, Heartbeat].Nodup ∧
    [InvalidMessageType, Call, Reply, Exception, Oneway, Stream, Heartbeat]
      = (List.range 7).map Int.ofNat ∧
    ∀ (m : message) (pool : List transInfo), (m.zero pool).1.MessageType = 0 := by
  refine ⟨rfl, rfl, rfl, rfl, rfl, rfl, rfl, by decide, by decide, ?_⟩
  intro m pool
  rw [zero_fst_eq]
  rfl

/-- C18: for every store, whatever puts built it, the reset leaves TransIntInfo() and
TransStrInfo() without entries; Recycle pools that reset store, and a put of a map on
the store acquired again leaves exactly that map, in either namespace. -/
theorem store_reset_leaves_nothing (ti : transInfo) (pool : List transInfo)
    (kvInt : List (Fin 65536 × String)) (kvStr : List (String × String)) :
    GoMap.entries ti.zero.TransIntInfo = [] ∧
    GoMap.entries ti.zero.TransStrInfo = [] ∧
    (∀ k, GoMap.get ti.zero.TransIntInfo k = none) ∧
    (∀ k, GoMap.get ti.zero.TransStrInfo k = none) ∧
    poolGet newTransInfo (ti.Recycle pool) (some 0) = (ti.zero, pool) ∧
    ((poolGet newTransInfo (ti.Recycle pool) (some 0)).1.PutTransIntInfo
      (some kvInt)).TransIntInfo = some kvInt ∧
    ((poolGet newTransInfo (ti.Recycle pool) (some 0)).1.PutTransStrInfo
      (some kvStr)).TransStrInfo = some kvStr ∧
    ((poolGet newTransInfo (ti.Recycle pool) (some 0)).1.PutTransIntInfo
      (some kvInt)).TransStrInfo.entries = [] ∧
    ((poolGet newTransInfo (ti.Recycle pool) (some 0)).1.PutTransStrInfo
      (some kvStr)).TransIntInfo.entries = [] := by
  have hi : GoMap.entries ti.zero.intInfo = [] := GoMap.entries_clear ti.intInfo
  have hs : GoMap.entries ti.zero.strInfo = [] := GoMap.entries_clear ti.strInfo
  have hli : GoMap.len ti.zero.intInfo = 0 := by simp [GoMap.len, GoMap.keys, hi]
  have hls : GoMap.len ti.zero.strInfo = 0 := by simp [GoMap.len, GoMap.keys, hs]
  have hget : poolGet newTransInfo (ti.Recycle pool) (some 0) = (ti.zero, pool) := rfl
  refine ⟨hi, hs, ?_, ?_, hget, ?_, ?_, ?_, ?_⟩
  · intro k; simp [transInfo.TransIntInfo, GoMap.get, hi]
  · intro k; simp [transInfo.TransStrInfo, GoMap.get, hs]
  · rw [hget]; simp [transInfo.PutTransIntInfo, transInfo.TransIntInfo, hli]
  · rw [hget]; simp [transInfo.PutTransStrInfo, transInfo.TransStrInfo, hls]
  · rw [hget]; simp [transInfo.PutTransIntInfo, transInfo.TransStrInfo, hli, hs]
  · rw [hget]; simp [transInfo.PutTransStrInfo, transInfo.TransIntInfo, hls, hi]

/-- C19: for every store and every argument map, nil or not, PutTransIntInfo leaves the
string-keyed map as it was and PutTransStrInfo leaves the numeric-keyed map as it
was. -/
theorem put_leaves_other_namespace (ti : transInfo) (kvInt : GoMap (Fin 65536) String)
    (kvStr : GoMap String String) :
    (ti.PutTransIntInfo kvInt).TransStrInfo = ti.TransStrInfo ∧
    (ti.PutTransStrInfo kvStr).TransIntInfo = ti.TransIntInfo := by
  constructor
  · unfold transInfo.PutTransIntInfo transInfo.TransStrInfo
    cases kvInt with
    | none => rfl
    | some l => dsimp only; split <;> rfl
  · unfold transInfo.PutTransStrInfo transInfo.TransIntInfo
    cases kvStr with
    | none => rfl
    | some l => dsimp only; split <;> rfl

/-- C20: for every message state, a reset of the reset state changes nothing and
releases no store; a reset, a Recycle and a RecycleMessage of a message whose store is
detached leave the store pool as it was, and RecycleMessage of a nil message leaves
both pools as they were. -/
theorem zero_twice_is_zero (m : message) (pool pool2 : List transInfo) (p : Pools) :
    (m.zero pool).1.zero pool2 = ((m.zero pool).1, pool2) ∧
    (({ m with transInfo := none } : message).zero pool).2 = pool ∧
    (({ m with transInfo := none } : message).Recycle p).transInfoPool = p.transInfoPool ∧
    (RecycleMessage (some { m with transInfo := none }) p).transInfoPool = p.transInfoPool ∧
    ((m.zero pool).1.Recycle p).transInfoPool = p.transInfoPool ∧
    (RecycleMessage none p).messagePool = p.messagePool ∧
    (RecycleMessage none p).transInfoPool = p.transInfoPool := by
  have h1 : (m.zero pool).1.zero pool2 = ((m.zero pool).1, pool2) := by
    apply Prod.ext
    · rw [zero_fst_eq (m.zero pool).1 pool2, zero_fst_eq m pool]
      simp only [GoMap.clear_clear]
    · rw [zero_snd_eq (m.zero pool).1 pool2, zero_fst_eq m pool]
  have h2 : ∀ q : List transInfo, (({ m with transInfo := none } : message).zero q).2 = q := by
    intro q
    rw [zero_snd_eq]
  refine ⟨h1, h2 pool, ?_, ?_, ?_, rfl, rfl⟩
  · unfold message.Recycle
    exact h2 p.transInfoPool
  · unfold RecycleMessage message.Recycle
    exact h2 p.transInfoPool
  · unfold message.Recycle
    show ((m.zero pool).1.zero p.transInfoPool).2 = p.transInfoPool
    rw [zero_snd_eq (m.zero pool).1 p.transInfoPool, zero_fst_eq m pool]

/-! ## The store's maps stay allocated -/

theorem GoMap.foldl_set_ne_none {K V : Type} [DecidableEq K] (src : GoMap K V) (ks : List K)
    (acc : GoMap K V) (h : acc ≠ none) :
    ks.foldl (fun acc k => match GoMap.get src k with
      | some v => GoMap.set acc k v
      | none => acc) acc ≠ none := by
  induction ks generalizing acc with
  | nil => exact h
  | cons k ks ih =>
    rw [List.foldl_cons]
    apply ih
    cases GoMap.get src k with
    | none => exact h
    | some v => simp [GoMap.set]

theorem GoMap.putAll_ne_none {K V : Type} [DecidableEq K] (dst src : GoMap K V)
    (h : dst ≠ none) : GoMap.putAll dst src ≠ none :=
  GoMap.foldl_set_ne_none src (GoMap.keys src) dst h

theorem GoMap.clear_ne_none {K V : Type} [DecidableEq K] (m : GoMap K V) (h : m ≠ none) :
    GoMap.clear m ≠ none := by
  cases m with
  | none => exact absurd rfl h
  | some l => rw [GoMap.clear_some]; simp

/-- One store operation keeps both maps allocated. -/
theorem store_applyOp_keeps (ti : transInfo) (o : StoreOp)
    (h : ti.intInfo ≠ none ∧ ti.strInfo ≠ none) :
    (ti.applyOp o).intInfo ≠ none ∧ (ti.applyOp o).strInfo ≠ none := by
  cases o with
  | PutTransIntInfo kvInfo =>
    cases kvInfo with
    | none => exact h
    | some l =>
      show (ti.PutTransIntInfo (some l)).intInfo ≠ none ∧
        (ti.PutTransIntInfo (some l)).strInfo ≠ none
      unfold transInfo.PutTransIntInfo
      by_cases hl : GoMap.len ti.intInfo = 0
      · simp only [hl, if_true]
        exact ⟨by simp, h.2⟩
      · simp only [hl, if_false]
        exact ⟨GoMap.putAll_ne_none _ _ h.1, h.2⟩
  | PutTransStrInfo kvInfo =>
    cases kvInfo with
    | none => exact h
    | some l =>
      show (ti.PutTransStrInfo (some l)).intInfo ≠ none ∧
        (ti.PutTransStrInfo (some l)).strInfo ≠ none
      unfold transInfo.PutTransStrInfo
      by_cases hl : GoMap.len ti.strInfo = 0
      · simp only [hl, if_true]
        exact ⟨h.1, by simp⟩
      · simp only [hl, if_false]
        exact ⟨h.1, GoMap.putAll_ne_none _ _ h.2⟩
  | zero =>
    exact ⟨GoMap.clear_ne_none _ h.1, GoMap.clear_ne_none _ h.2⟩

/-- A sequence of store operations keeps both maps allocated. -/
theorem store_run_keeps (ops : List StoreOp) (ti : transInfo)
    (h : ti.intInfo ≠ none ∧ ti.strInfo ≠ none) :
    (ti.run ops).intInfo ≠ none ∧ (ti.run ops).strInfo ≠ none := by
  induction ops generalizing ti with
  | nil => exact h
  | cons o os ih => exact ih (ti.applyOp o) (store_applyOp_keeps ti o h)

/-- C21: for every store, PutTransIntInfo(nil) and PutTransStrInfo(nil) leave the store
as it was; and for the store newTransInfo creates and every finite sequence of
PutTransIntInfo, PutTransStrInfo and reset operations, with nil, empty or other
argument maps, both maps of the store are allocated afterwards. -/
theorem store_maps_stay_allocated (ti : transInfo) (ops : List StoreOp) :
    ti.PutTransIntInfo none = ti ∧
    ti.PutTransStrInfo none = ti ∧
    (newTransInfo.run ops).TransIntInfo ≠ none ∧
    (newTransInfo.run ops).TransStrInfo ≠ none ∧
    (newTransInfo.run [StoreOp.PutTransIntInfo none, StoreOp.PutTransStrInfo (some []),
      StoreOp.PutTransIntInfo (some [(1, "a")]), StoreOp.zero,
      StoreOp.PutTransStrInfo none]).TransIntInfo = some [] ∧
    (newTransInfo.run [StoreOp.PutTransIntInfo none, StoreOp.PutTransStrInfo (some []),
      StoreOp.PutTransIntInfo (some [(1, "a")]), StoreOp.zero,
      StoreOp.PutTransStrInfo none]).TransStrInfo = some [] := by
  have h := store_run_keeps ops newTransInfo ⟨by simp [newTransInfo, GoMap.make],
    by simp [newTransInfo, GoMap.make]⟩
  exact ⟨rfl, rfl, h.1, h.2, by decide, by decide⟩

end remote
